import Mathlib

/-!
Verification development for the Mindflow diagram editor's interaction core.

The definitions below are a shallow embedding of the TypeScript sources:
  * `src/types/index.ts` — the data model (`Point`, `Node`, `Edge`,
    `ViewportState`, `CanvasState`, `HistoryState`);
  * `src/store/useCanvasStore.ts` — the scene-model operations
    (`getAnchor`, `addNode`, `addTextNode`, `updateNodeSync`,
    `updateConnectedEdges`, `deleteNode`, `deleteSelected`, `addEdge`,
    `deleteEdge`, `setViewport`, `zoom`, `pan`, `saveHistory`, `undo`,
    `redo`, `clear`, `loadCanvas`);
  * `src/components/Canvas/CanvasNode.tsx` — the resize-handle drag
    handler (`ResizeHandles`);
  * the toolbar import handler (`handleImport`).

Conventions of the embedding:
  * JavaScript numbers are modelled as real numbers (`ℝ`); the code never
    relies on float rounding for the properties studied here.
  * `JSON.parse(JSON.stringify(x))` deep copies of plain data are the
    identity on the model.
  * Fresh ids produced by `uuidv4()` are supplied as explicit arguments.
  * External side effects (the document store `markUnsaved` /
    `updateDocumentState`, the debounced sync bridge) are out of scope of
    the scene model and are dropped; they never read or write the fields
    modelled here.
  * Zustand's `set` merging a partial record into the store state is
    modelled by a Lean structure update.
-/

namespace Mindflow

noncomputable section

/-- 2D point in world coordinates, from `src/types/index.ts` `Point`. -/
structure Point where
  x : ℝ
  y : ℝ

/-- Node size, from the `size: { width, height }` field of `Node`. -/
structure Size where
  width : ℝ
  height : ℝ

/-- Shape kind, from `src/types/index.ts` `NodeType`. -/
inductive NodeType where
  | rectangle
  | ellipse
  | diamond
  | text
deriving DecidableEq

/-- A placed shape or text label, from `src/types/index.ts` `Node`. -/
structure Node where
  id : String
  type : NodeType
  position : Point
  size : Size
  text : String
  fill : String
  stroke : String
  strokeWidth : ℝ

/-- A directed connector, from `src/types/index.ts` `Edge`. -/
structure Edge where
  id : String
  sourceNodeId : String
  targetNodeId : String
  sourceAnchor : Point
  targetAnchor : Point

/-- Viewport transform, from `src/types/index.ts` `ViewportState`.
`screen = world * scale + (x, y)`. -/
structure ViewportState where
  x : ℝ
  y : ℝ
  scale : ℝ

/-- Marquee selection box, from `src/types/index.ts` `SelectionBox`.
The source field `end` is a reserved word in Lean and is spelled `endP`. -/
structure SelectionBox where
  start : Point
  endP : Point
  active : Bool
  stroke : String
  fill : String
  strokeWidth : ℝ

/-- Tool mode, from the `tool: 'select' | 'line'` field of `CanvasState`. -/
inductive Tool where
  | select
  | line
deriving DecidableEq

/-- History snapshot, from `src/types/index.ts` `HistoryState`. -/
structure HistoryState where
  nodes : List Node
  edges : List Edge
  viewport : ViewportState

/-- The authoritative scene state, from `src/types/index.ts` `CanvasState`. -/
structure CanvasState where
  nodes : List Node
  edges : List Edge
  selectedNodes : List String
  selectedEdges : List String
  viewport : ViewportState
  tool : Tool
  isConnecting : Bool
  connectionSource : Option String
  history : List HistoryState
  historyIndex : ℤ
  isDragging : Bool
  isPanning : Bool
  selectionBox : Option SelectionBox

/-- `DEFAULT_NODE_SIZE` from `useCanvasStore.ts`. -/
def DEFAULT_NODE_SIZE : Size := ⟨120, 80⟩

/-- `DEFAULT_VIEWPORT` from `useCanvasStore.ts`. -/
def DEFAULT_VIEWPORT : ViewportState := ⟨0, 0, 1⟩

/-- `TEXT_NODE_PADDING` from `useCanvasStore.ts`. -/
def TEXT_NODE_PADDING : ℝ := 10

/-- The initial store state from the `create` call in `useCanvasStore.ts`
(`nodes: [], edges: [], ..., history: [], historyIndex: -1`). -/
def initialState : CanvasState where
  nodes := []
  edges := []
  selectedNodes := []
  selectedEdges := []
  viewport := DEFAULT_VIEWPORT
  tool := Tool.select
  isConnecting := false
  connectionSource := none
  history := []
  historyIndex := -1
  isDragging := false
  isPanning := false
  selectionBox := none

/-- JavaScript `Math.atan2 y x` on non-NaN inputs. -/
def atan2 (y x : ℝ) : ℝ :=
  if 0 < x then Real.arctan (y / x)
  else if x < 0 then
    (if 0 ≤ y then Real.arctan (y / x) + Real.pi else Real.arctan (y / x) - Real.pi)
  else if 0 < y then Real.pi / 2
  else if y < 0 then -(Real.pi / 2)
  else 0

/-- Center of a node's bounding box (`position + size / 2`), the quantity the
source recomputes inline as `fromCenter` / `toCenter` in `getAnchor`. -/
def nodeCenter (n : Node) : Point :=
  ⟨n.position.x + n.size.width / 2, n.position.y + n.size.height / 2⟩

/-- The Geometry Engine: `getAnchor(fromNode, toNode)` from
`useCanvasStore.ts` lines 125–174.  `Math.hypot dx dy` is
`Real.sqrt (dx^2 + dy^2)`. -/
def getAnchor (fromNode toNode : Node) : Point :=
  let fromCenter := nodeCenter fromNode
  let toCenter := nodeCenter toNode
  let dx := toCenter.x - fromCenter.x
  let dy := toCenter.y - fromCenter.y
  let dist := Real.sqrt (dx ^ 2 + dy ^ 2)
  if dist = 0 then fromCenter
  else
    let nx := dx / dist
    let ny := dy / dist
    match fromNode.type with
    | NodeType.rectangle | NodeType.text =>
      let halfWidth := fromNode.size.width / 2
      let halfHeight := fromNode.size.height / 2
      let tRect := 1 / (|nx / halfWidth| + |ny / halfHeight|)
      ⟨fromCenter.x + tRect * nx, fromCenter.y + tRect * ny⟩
    | NodeType.ellipse =>
      let a := fromNode.size.width / 2
      let b := fromNode.size.height / 2
      let theta := atan2 dy dx
      ⟨fromCenter.x + a * Real.cos theta, fromCenter.y + b * Real.sin theta⟩
    | NodeType.diamond =>
      let w := fromNode.size.width / 2
      let h := fromNode.size.height / 2
      let tDiamond := 1 / (|nx / w| + |ny / h|)
      ⟨fromCenter.x + tDiamond * nx, fromCenter.y + tDiamond * ny⟩

/-- Extract the `{nodes, edges, viewport}` snapshot of the current state,
as built inline by `saveHistory` (the `JSON` deep copy is the identity on
the model). -/
def snapshotOf (s : CanvasState) : HistoryState :=
  ⟨s.nodes, s.edges, s.viewport⟩

/-- `saveHistory()` from `useCanvasStore.ts` lines 648–667:
`history.slice(0, historyIndex + 1)`, push the snapshot, `shift()` the
oldest entry if the length exceeds 50, set the index to the last entry. -/
def saveHistory (s : CanvasState) : CanvasState :=
  let truncated := s.history.take (s.historyIndex + 1).toNat
  let pushed := truncated ++ [snapshotOf s]
  let newHistory := if 50 < pushed.length then pushed.tail else pushed
  { s with history := newHistory, historyIndex := (newHistory.length : ℤ) - 1 }

/-- Sentinel used to model an out-of-bounds `history[i]` access; the source
would crash there (`undefined.nodes`), and no reachable state hits it. -/
def emptySnapshot : HistoryState := ⟨[], [], DEFAULT_VIEWPORT⟩

/-- `undo()` from `useCanvasStore.ts` lines 669–685. -/
def undo (s : CanvasState) : CanvasState :=
  if 0 < s.historyIndex then
    let prevState := s.history.getD (s.historyIndex - 1).toNat emptySnapshot
    { s with
      nodes := prevState.nodes
      edges := prevState.edges
      viewport := prevState.viewport
      historyIndex := s.historyIndex - 1
      selectedNodes := []
      selectedEdges := [] }
  else s

/-- `redo()` from `useCanvasStore.ts` lines 687–703. -/
def redo (s : CanvasState) : CanvasState :=
  if s.historyIndex < (s.history.length : ℤ) - 1 then
    let nextState := s.history.getD (s.historyIndex + 1).toNat emptySnapshot
    { s with
      nodes := nextState.nodes
      edges := nextState.edges
      viewport := nextState.viewport
      historyIndex := s.historyIndex + 1
      selectedNodes := []
      selectedEdges := [] }
  else s

/-- Partial node update (`Partial<Node>` restricted to the fields callers
actually patch), the `updates` argument of `updateNode` / `updateNodeSync`. -/
structure NodeUpdates where
  position : Option Point := none
  size : Option Size := none
  text : Option String := none
  fill : Option String := none
  stroke : Option String := none
  strokeWidth : Option ℝ := none

/-- The spread `{ ...node, ...updates }` applied to one node. -/
def applyUpdates (n : Node) (u : NodeUpdates) : Node :=
  { n with
    position := u.position.getD n.position
    size := u.size.getD n.size
    text := u.text.getD n.text
    fill := u.fill.getD n.fill
    stroke := u.stroke.getD n.stroke
    strokeWidth := u.strokeWidth.getD n.strokeWidth }

/-- Sentinel for the source's non-null assertion
`state.nodes.find(...)!` inside `updateConnectedEdges`; never hit when the
edge's endpoints exist (the no-dangling-edges invariant). -/
def sentinelNode : Node :=
  ⟨"", NodeType.rectangle, ⟨0, 0⟩, ⟨0, 0⟩, "", "", "", 0⟩

/-- `updateConnectedEdges(nodeId)` from `useCanvasStore.ts` lines 176–195:
recompute both anchors of every edge incident to `nodeId`. -/
def updateConnectedEdges (nodeId : String) (s : CanvasState) : CanvasState :=
  match s.nodes.find? (fun n => n.id == nodeId) with
  | none => s
  | some _ =>
    { s with
      edges := s.edges.map (fun edge =>
        if edge.sourceNodeId ≠ nodeId ∧ edge.targetNodeId ≠ nodeId then edge
        else
          let sourceNode := (s.nodes.find? (fun n => n.id == edge.sourceNodeId)).getD sentinelNode
          let targetNode := (s.nodes.find? (fun n => n.id == edge.targetNodeId)).getD sentinelNode
          { edge with
            sourceAnchor := getAnchor sourceNode targetNode
            targetAnchor := getAnchor targetNode sourceNode }) }

/-- `updateNodeSync(id, updates)` from `useCanvasStore.ts` lines 350–359:
patch the node in place, then recompute anchors of its incident edges.
No history snapshot is taken. -/
def updateNodeSync (id : String) (updates : NodeUpdates) (s : CanvasState) : CanvasState :=
  updateConnectedEdges id
    { s with nodes := s.nodes.map (fun node => if node.id == id then applyUpdates node updates else node) }

/-- The debounced `updateNode` variant (`debouncedUpdateNode`,
`useCanvasStore.ts` lines 111–120) once its debounce fires or is flushed:
the applied mutation is identical to `updateNodeSync` and likewise takes
no history snapshot. -/
def updateNodeDebounced (id : String) (updates : NodeUpdates) (s : CanvasState) : CanvasState :=
  updateNodeSync id updates s

/-- The node literal built by `addNode(type, position)`
(`useCanvasStore.ts` lines 215–235); the `uuidv4()` id is the `id`
argument. -/
def mkNode (id : String) (type : NodeType) (position : Point) : Node where
  id := id
  type := type
  position := position
  size := DEFAULT_NODE_SIZE
  text := "New Node"
  fill := "#ffffff"
  stroke := "#666666"
  strokeWidth := 2

/-- `addNode(type, position)` from `useCanvasStore.ts` lines 215–235:
append the node, make it the sole selection.  Note: unlike `addTextNode`,
`duplicateNode`, `deleteNode`, `addEdge` and `deleteEdge`, this operation
does NOT call `saveHistory`. -/
def addNode (id : String) (type : NodeType) (position : Point) (s : CanvasState) : CanvasState :=
  let node := mkNode id type position
  { s with
    nodes := s.nodes ++ [node]
    selectedNodes := [node.id]
    selectedEdges := [] }

/-- `addTextNode(position)` from `useCanvasStore.ts` lines 324–345:
append a text node (size `100+2*padding × 30+2*padding`), select it, then
`saveHistory()`. -/
def addTextNode (id : String) (position : Point) (s : CanvasState) : CanvasState :=
  let node : Node :=
    { id := id
      type := NodeType.text
      position := position
      size := ⟨100 + TEXT_NODE_PADDING * 2, 30 + TEXT_NODE_PADDING * 2⟩
      text := "Click to edit"
      fill := "transparent"
      stroke := "transparent"
      strokeWidth := 0 }
  saveHistory
    { s with
      nodes := s.nodes ++ [node]
      selectedNodes := [node.id]
      selectedEdges := [] }

/-- `deleteNode(id)` from `useCanvasStore.ts` lines 361–373: drop the node,
drop every edge referencing it at either end, drop it from the selection,
then `saveHistory()`. -/
def deleteNode (id : String) (s : CanvasState) : CanvasState :=
  saveHistory
    { s with
      nodes := s.nodes.filter (fun node => node.id ≠ id)
      edges := s.edges.filter (fun edge => edge.sourceNodeId ≠ id ∧ edge.targetNodeId ≠ id)
      selectedNodes := s.selectedNodes.filter (fun nodeId => nodeId ≠ id) }

/-- `deleteSelected()` from `useCanvasStore.ts` lines 433–451: drop the
selected nodes, the selected edges and every edge touching a selected
node, clear both selections, then `saveHistory()`. -/
def deleteSelected (s : CanvasState) : CanvasState :=
  saveHistory
    { s with
      nodes := s.nodes.filter (fun node => ¬ node.id ∈ s.selectedNodes)
      edges := s.edges.filter (fun edge =>
        ¬ edge.id ∈ s.selectedEdges ∧
        ¬ edge.sourceNodeId ∈ s.selectedNodes ∧
        ¬ edge.targetNodeId ∈ s.selectedNodes)
      selectedNodes := []
      selectedEdges := [] }

/-- `addEdge(sourceNodeId, targetNodeId)` from `useCanvasStore.ts` lines
453–480: reject (return unchanged) if either endpoint is not found or the
two ids coincide; otherwise append one edge whose anchors are computed by
`getAnchor`, reset the connection sub-state, then `saveHistory()`.
The `uuidv4()` edge id is the `edgeId` argument.
The source performs NO duplicate-edge check here; the UI click handler in
`CanvasNode.tsx` checks for an existing connection before calling. -/
def addEdge (edgeId sourceNodeId targetNodeId : String) (s : CanvasState) : CanvasState :=
  match s.nodes.find? (fun n => n.id == sourceNodeId),
        s.nodes.find? (fun n => n.id == targetNodeId) with
  | some sourceNode, some targetNode =>
    if sourceNodeId = targetNodeId then s
    else
      let edge : Edge :=
        { id := edgeId
          sourceNodeId := sourceNodeId
          targetNodeId := targetNodeId
          sourceAnchor := getAnchor sourceNode targetNode
          targetAnchor := getAnchor targetNode sourceNode }
      saveHistory
        { s with
          edges := s.edges ++ [edge]
          isConnecting := false
          connectionSource := none }
  | _, _ => s

/-- `deleteEdge(id)` from `useCanvasStore.ts` lines 482–491. -/
def deleteEdge (id : String) (s : CanvasState) : CanvasState :=
  saveHistory
    { s with
      edges := s.edges.filter (fun edge => edge.id ≠ id)
      selectedEdges := s.selectedEdges.filter (fun edgeId => edgeId ≠ id) }

/-- Partial viewport update, the `Partial<ViewportState>` argument of
`setViewport`. -/
structure ViewportUpdate where
  x : Option ℝ := none
  y : Option ℝ := none
  scale : Option ℝ := none

/-- `setViewport(viewport)` from `useCanvasStore.ts` lines 512–516: spread
merge, no clamping of any field. -/
def setViewport (u : ViewportUpdate) (s : CanvasState) : CanvasState :=
  { s with
    viewport :=
      ⟨u.x.getD s.viewport.x, u.y.getD s.viewport.y, u.scale.getD s.viewport.scale⟩ }

/-- `zoom(delta, center)` from `useCanvasStore.ts` lines 518–537: multiply
the scale by `(1 + delta)`, clamp to `[0.25, 2]`, and re-solve the
viewport origin so the world point under `center` stays under `center`. -/
def zoom (delta : ℝ) (center : Point) (s : CanvasState) : CanvasState :=
  let oldScale := s.viewport.scale
  let newScale := oldScale * (1 + delta)
  let clamped := max 0.25 (min 2 newScale)
  let oldWorldX := (center.x - s.viewport.x) / oldScale
  let oldWorldY := (center.y - s.viewport.y) / oldScale
  let newX := center.x - oldWorldX * clamped
  let newY := center.y - oldWorldY * clamped
  { s with viewport := ⟨newX, newY, clamped⟩ }

/-- `pan(delta)` from `useCanvasStore.ts` lines 539–547. -/
def pan (delta : Point) (s : CanvasState) : CanvasState :=
  { s with
    viewport :=
      ⟨s.viewport.x + delta.x, s.viewport.y + delta.y, s.viewport.scale⟩ }

/-- `clear()` from `useCanvasStore.ts` lines 705–717. -/
def clear (s : CanvasState) : CanvasState :=
  saveHistory
    { s with
      nodes := []
      edges := []
      selectedNodes := []
      selectedEdges := []
      viewport := DEFAULT_VIEWPORT }

/-- `loadCanvas(canvasState)` from `useCanvasStore.ts` lines 719–742:
wholesale replacement of nodes/edges/viewport (deep copies are the model
identity); no-op when the incoming nodes and edges are `JSON.stringify`
deep-equal (structural equality on the model) to the current ones;
otherwise replaces and pushes one history snapshot. -/
def loadCanvas (newNodes : List Node) (newEdges : List Edge) (newViewport : ViewportState)
    (s : CanvasState) : CanvasState :=
  open Classical in
  if s.nodes = newNodes ∧ s.edges = newEdges then s
  else
    saveHistory
      { s with
        nodes := newNodes
        edges := newEdges
        selectedNodes := []
        selectedEdges := []
        viewport := newViewport }

/-- The world-to-screen affine map of the viewport
(`screen = world * scale + (x, y)`, spec §3 and the Konva stage transform). -/
def worldToScreen (vp : ViewportState) (w : Point) : Point :=
  ⟨w.x * vp.scale + vp.x, w.y * vp.scale + vp.y⟩

/-- The screen-to-world inverse map, as computed inline by `zoom`
(`oldWorldX = (center.x - viewport.x) / oldScale`). -/
def screenToWorld (vp : ViewportState) (p : Point) : Point :=
  ⟨(p.x - vp.x) / vp.scale, (p.y - vp.y) / vp.scale⟩

/-- The `onDragMove` resize computation of `ResizeHandles` in
`CanvasNode.tsx` lines 886–952: given the handle index (0–7 in the order
top-left, top-right, bottom-right, bottom-left, top-center, right-center,
bottom-center, left-center), the node's current position/size, the
viewport, and the dragged handle's absolute stage position, produce the
new size and position passed to `onResize` / the position patch.  After
the `switch`, both dimensions are floored:
`newSize.width = Math.max(20, newSize.width)` and likewise for height. -/
def resizeFromHandle (index : ℕ) (originalPos : Point) (originalSize : Size)
    (viewport : ViewportState) (newPos : Point) : Size × Point :=
  let relativePos : Point :=
    ⟨(newPos.x - viewport.x) / viewport.scale, (newPos.y - viewport.y) / viewport.scale⟩
  let raw : Size × Point :=
    match index with
    | 0 => (⟨originalSize.width + (originalPos.x - relativePos.x),
             originalSize.height + (originalPos.y - relativePos.y)⟩,
            ⟨relativePos.x, relativePos.y⟩)
    | 1 => (⟨relativePos.x - originalPos.x,
             originalSize.height + (originalPos.y - relativePos.y)⟩,
            ⟨originalPos.x, relativePos.y⟩)
    | 2 => (⟨relativePos.x - originalPos.x, relativePos.y - originalPos.y⟩, originalPos)
    | 3 => (⟨originalSize.width + (originalPos.x - relativePos.x),
             relativePos.y - originalPos.y⟩,
            ⟨relativePos.x, originalPos.y⟩)
    | 4 => (⟨originalSize.width, originalSize.height + (originalPos.y - relativePos.y)⟩,
            ⟨originalPos.x, relativePos.y⟩)
    | 5 => (⟨relativePos.x - originalPos.x, originalSize.height⟩, originalPos)
    | 6 => (⟨originalSize.width, relativePos.y - originalPos.y⟩, originalPos)
    | 7 => (⟨originalSize.width + (originalPos.x - relativePos.x), originalSize.height⟩,
            ⟨relativePos.x, originalPos.y⟩)
    | _ => (originalSize, originalPos)
  (⟨max 20 raw.1.width, max 20 raw.1.height⟩, raw.2)

/-- One JSON field of an imported file as the import handler observes it:
either the key is absent (`undefined`), present but a falsy value
(`null`, `0`, `false`, `""`, `NaN`), present and truthy but not an array,
or an actual array of decoded values (a JavaScript array, including `[]`,
is always truthy). -/
inductive JsField (α : Type) where
  | absent
  | falsy
  | truthyNonArray
  | arr (xs : List α)

/-- JavaScript truthiness of a `JsField` (`!parsed.nodes` etc.). -/
def JsField.isTruthy {α : Type} : JsField α → Bool
  | JsField.absent => false
  | JsField.falsy => false
  | JsField.truthyNonArray => true
  | JsField.arr _ => true

/-- `Array.isArray(v) ? v : []` applied to a `JsField`. -/
def JsField.coerceArray {α : Type} : JsField α → List α
  | JsField.arr xs => xs
  | _ => []

/-- The `viewport` field of an imported file: absent, present-but-falsy,
or a decoded viewport object. -/
inductive JsViewportField where
  | absent
  | falsy
  | val (v : ViewportState)

/-- JavaScript truthiness of the viewport field. -/
def JsViewportField.isTruthy : JsViewportField → Bool
  | JsViewportField.absent => false
  | JsViewportField.falsy => false
  | JsViewportField.val _ => true

/-- `parsed.viewport || { x: 0, y: 0, scale: 1 }`. -/
def JsViewportField.orDefault : JsViewportField → ViewportState
  | JsViewportField.val v => v
  | _ => DEFAULT_VIEWPORT

/-- The parsed JSON content of an imported file, restricted to the three
fields the import handler inspects. -/
structure ParsedFile where
  nodes : JsField Node
  edges : JsField Edge
  viewport : JsViewportField

/-- Result of the import handler: the resulting canvas state and the
notification message shown to the user. -/
structure ImportResult where
  canvas : CanvasState
  notification : String

/-- Notification emitted by the import handler's `catch` branch. -/
def importFailedMsg : String := "Failed to import document"

/-- Notification emitted on successful import. -/
def importSuccessMsg : String := "Document imported successfully"

/-- The toolbar `handleImport` (Toolbar component, `reader.onload`): after
`JSON.parse`, `if (!parsed.nodes || !parsed.edges || !parsed.viewport)
throw`, which the `catch` turns into a failure notification with the
canvas untouched; otherwise a validated state with
`Array.isArray(parsed.nodes) ? parsed.nodes : []` (and likewise for
edges), `parsed.viewport || default`, is applied via `loadCanvas`.
The external document-store updates are out of scope. -/
def handleImport (parsed : ParsedFile) (s : CanvasState) : ImportResult :=
  if parsed.nodes.isTruthy && parsed.edges.isTruthy && parsed.viewport.isTruthy then
    { canvas :=
        loadCanvas parsed.nodes.coerceArray parsed.edges.coerceArray
          parsed.viewport.orDefault s
      notification := importSuccessMsg }
  else
    { canvas := s, notification := importFailedMsg }

/-- Overwrite the three document-content fields of the state, the shape of
every live mutation (`set({nodes, edges, viewport, ...})`). -/
def mutateFields (m : HistoryState) (s : CanvasState) : CanvasState :=
  { s with nodes := m.nodes, edges := m.edges, viewport := m.viewport }

/-- A commit-point mutation in the store's convention (spec §4.4 and every
structural operation of `useCanvasStore.ts`): mutate the document fields,
then `saveHistory()`.  `deleteNode`, `deleteSelected`, `addEdge`,
`deleteEdge`, `addTextNode`, `clear`, `loadCanvas`, drag-end and
resize-end all follow this shape. -/
def commit (m : HistoryState) (s : CanvasState) : CanvasState :=
  saveHistory (mutateFields m s)

/-- A sequence of commit-point mutations applied in order. -/
def commitAll (ms : List HistoryState) (s : CanvasState) : CanvasState :=
  ms.foldl (fun st m => commit m st) s

/-- Scene-model add/delete operations, for stating invariants preserved by
every sequence of such operations. -/
inductive SceneOp where
  | addNode (id : String) (type : NodeType) (position : Point)
  | addTextNode (id : String) (position : Point)
  | addEdge (edgeId sourceNodeId targetNodeId : String)
  | deleteNode (id : String)
  | deleteEdge (id : String)
  | deleteSelected

/-- Interpretation of a `SceneOp` on the canvas state. -/
def applyOp (s : CanvasState) : SceneOp → CanvasState
  | SceneOp.addNode id type position => addNode id type position s
  | SceneOp.addTextNode id position => addTextNode id position s
  | SceneOp.addEdge edgeId a b => addEdge edgeId a b s
  | SceneOp.deleteNode id => deleteNode id s
  | SceneOp.deleteEdge id => deleteEdge id s
  | SceneOp.deleteSelected => deleteSelected s

/-- Apply a sequence of add/delete operations in order. -/
def applyOps (ops : List SceneOp) (s : CanvasState) : CanvasState :=
  ops.foldl applyOp s

/-- The no-dangling-edges invariant (spec §3): every edge's two endpoint
ids reference currently-existing nodes. -/
def edgesWellFormed (s : CanvasState) : Prop :=
  ∀ e ∈ s.edges,
    (∃ n ∈ s.nodes, n.id = e.sourceNodeId) ∧ (∃ n ∈ s.nodes, n.id = e.targetNodeId)

/-- A sequence of zoom gestures (delta and screen center each) applied in
order. -/
def zoomSeq (l : List (ℝ × Point)) (s : CanvasState) : CanvasState :=
  l.foldl (fun st p => zoom p.1 p.2 st) s

/-- The front eviction step of `saveHistory`
(`if (newHistory.length > 50) newHistory.shift()`), split out for
reasoning; `(saveHistory s).history` is definitionally
`evict (truncated-prefix ++ [snapshot])`. -/
def evict (xs : List HistoryState) : List HistoryState :=
  if 50 < xs.length then xs.tail else xs

/-- The last `n` entries of a list (all of it when it is shorter). -/
def lastN (n : ℕ) (xs : List HistoryState) : List HistoryState :=
  xs.drop (xs.length - n)

/-- The history bookkeeping invariant every reachable store state enjoys:
the index points at the last entry and the list is within the 50-entry
cap. -/
def HistWF (s : CanvasState) : Prop :=
  s.historyIndex = (s.history.length : ℤ) - 1 ∧ s.history.length ≤ 50

/-- Concrete rectangle used in witnesses: position `(0, 0)`, size
`120 × 80`, hence center `(60, 40)`. -/
def rectAt00 : Node := mkNode "r1" NodeType.rectangle ⟨0, 0⟩

/-- Concrete rectangle used in witnesses: position `(200, 0)`, size
`120 × 80`, hence center `(260, 40)` — horizontally in direction `(1, 0)`
from `rectAt00`'s center. -/
def rectAt200 : Node := mkNode "r2" NodeType.rectangle ⟨200, 0⟩

/-- Concrete two-node scene used by witnesses and counterexamples. -/
def stateR12 : CanvasState := { initialState with nodes := [rectAt00, rectAt200] }

end

/-! ## Theorems -/

/-- C6: for every scene state, every delta and every screen center `C`
(with a non-zero current scale, since the source would divide by zero
otherwise), `zoom(delta, C)` multiplies the scale by `(1 + delta)`, clamps
it to `[0.25, 2]`, and re-solves the viewport origin so that the world
coordinate previously on screen at `C` maps back exactly to `C` at the new
scale (the real-number model is exact, hence within any floating-point
tolerance). -/
theorem c6_zoom_fixed_point (s : CanvasState) (delta : ℝ) (C : Point)
    (h : s.viewport.scale ≠ 0) :
    (zoom delta C s).viewport.scale = max 0.25 (min 2 (s.viewport.scale * (1 + delta))) ∧
    0.25 ≤ (zoom delta C s).viewport.scale ∧
    (zoom delta C s).viewport.scale ≤ 2 ∧
    worldToScreen (zoom delta C s).viewport (screenToWorld s.viewport C) = C := by
  refine ⟨rfl, ?_, ?_, ?_⟩
  · exact le_max_left _ _
  · have h1 : min 2 (s.viewport.scale * (1 + delta)) ≤ 2 := min_le_left _ _
    simpa [zoom] using max_le (by norm_num) h1
  · simp only [zoom, worldToScreen, screenToWorld]
    cases C with
    | mk cx cy =>
      simp only [Point.mk.injEq]
      constructor <;> ring

/-- Witness for C6 at a concrete input. -/
theorem c6_zoom_fixed_point_witness :
    (zoom 0.5 ⟨100, 100⟩ initialState).viewport.scale =
      max 0.25 (min 2 (initialState.viewport.scale * (1 + 0.5))) ∧
    0.25 ≤ (zoom 0.5 ⟨100, 100⟩ initialState).viewport.scale ∧
    (zoom 0.5 ⟨100, 100⟩ initialState).viewport.scale ≤ 2 ∧
    worldToScreen (zoom 0.5 ⟨100, 100⟩ initialState).viewport
      (screenToWorld initialState.viewport ⟨100, 100⟩) = ⟨100, 100⟩ :=
  c6_zoom_fixed_point initialState 0.5 ⟨100, 100⟩ (by norm_num [initialState, DEFAULT_VIEWPORT])

/-- C7 (amended): `zoom` always clamps the resulting scale to
`[0.25, 2]` — in particular any sequence of zoom calls, zoom-in or
zoom-out, ends with a scale in that interval — and `pan` never changes the
scale.  (`setViewport` and `loadCanvas`, by contrast, apply the supplied
scale unchanged; see the counterexample.) -/
theorem c7_zoom_scale_always_clamped :
    (∀ (delta : ℝ) (C : Point) (s : CanvasState),
        0.25 ≤ (zoom delta C s).viewport.scale ∧ (zoom delta C s).viewport.scale ≤ 2) ∧
    (∀ (l : List (ℝ × Point)) (z : ℝ × Point) (s : CanvasState),
        0.25 ≤ (zoomSeq (l ++ [z]) s).viewport.scale ∧
        (zoomSeq (l ++ [z]) s).viewport.scale ≤ 2) ∧
    (∀ (d : Point) (s : CanvasState), (pan d s).viewport.scale = s.viewport.scale) := by
  have hz : ∀ (delta : ℝ) (C : Point) (s : CanvasState),
      0.25 ≤ (zoom delta C s).viewport.scale ∧ (zoom delta C s).viewport.scale ≤ 2 := by
    intro delta C s
    constructor
    · exact le_max_left _ _
    · have h1 : min 2 (s.viewport.scale * (1 + delta)) ≤ 2 := min_le_left _ _
      simpa [zoom] using max_le (by norm_num) h1
  refine ⟨hz, ?_, fun d s => rfl⟩
  intro l z s
  have : zoomSeq (l ++ [z]) s = zoom z.1 z.2 (zoomSeq l s) := by
    simp [zoomSeq, List.foldl_append]
  rw [this]
  exact hz z.1 z.2 (zoomSeq l s)

/-- C7 counterexample: `setViewport` is one of the claim's quantified
viewport operations, yet it applies the supplied scale with no clamping:
`setViewport({scale: 5})` on the initial state yields `scale = 5 > 2`. -/
theorem c7_counterexample :
    (setViewport ⟨none, none, some 5⟩ initialState).viewport.scale = 5 ∧
    ¬ (setViewport ⟨none, none, some 5⟩ initialState).viewport.scale ≤ 2 := by
  constructor
  · rfl
  · rw [show (setViewport ⟨none, none, some 5⟩ initialState).viewport.scale = 5 from rfl]
    norm_num

/-- Unfolded form of `getAnchor` used to reason about its branches. -/
lemma getAnchor_def (fromN toN : Node) :
    getAnchor fromN toN =
      (if Real.sqrt (((nodeCenter toN).x - (nodeCenter fromN).x) ^ 2 +
          ((nodeCenter toN).y - (nodeCenter fromN).y) ^ 2) = 0 then nodeCenter fromN
       else
        let dx := (nodeCenter toN).x - (nodeCenter fromN).x
        let dy := (nodeCenter toN).y - (nodeCenter fromN).y
        let dist := Real.sqrt (dx ^ 2 + dy ^ 2)
        let nx := dx / dist
        let ny := dy / dist
        match fromN.type with
        | NodeType.rectangle | NodeType.text =>
          let halfWidth := fromN.size.width / 2
          let halfHeight := fromN.size.height / 2
          let tRect := 1 / (|nx / halfWidth| + |ny / halfHeight|)
          ⟨(nodeCenter fromN).x + tRect * nx, (nodeCenter fromN).y + tRect * ny⟩
        | NodeType.ellipse =>
          let a := fromN.size.width / 2
          let b := fromN.size.height / 2
          let theta := atan2 dy dx
          ⟨(nodeCenter fromN).x + a * Real.cos theta, (nodeCenter fromN).y + b * Real.sin theta⟩
        | NodeType.diamond =>
          let w := fromN.size.width / 2
          let h := fromN.size.height / 2
          let tDiamond := 1 / (|nx / w| + |ny / h|)
          ⟨(nodeCenter fromN).x + tDiamond * nx, (nodeCenter fromN).y + tDiamond * ny⟩) := rfl

/-- C10: for a rectangle-kind node, the anchor toward a target whose
center lies in direction `(1, 0)` at distance `d > 0` is
`(center.x + width/2, center.y)`; toward direction `(0, 1)` it is
`(center.x, center.y + height/2)`; and whenever the target center
coincides exactly with the source center (zero-length direction vector),
`getAnchor` returns the center itself, for every one of the four shape
kinds, with no division by zero. -/
theorem c10_anchor_rectangle (fromN toN : Node) :
    (fromN.type = NodeType.rectangle →
      ∀ d : ℝ, 0 < d → 0 < fromN.size.width →
        (nodeCenter toN).x = (nodeCenter fromN).x + d →
        (nodeCenter toN).y = (nodeCenter fromN).y →
        getAnchor fromN toN =
          ⟨(nodeCenter fromN).x + fromN.size.width / 2, (nodeCenter fromN).y⟩) ∧
    (fromN.type = NodeType.rectangle →
      ∀ d : ℝ, 0 < d → 0 < fromN.size.height →
        (nodeCenter toN).x = (nodeCenter fromN).x →
        (nodeCenter toN).y = (nodeCenter fromN).y + d →
        getAnchor fromN toN =
          ⟨(nodeCenter fromN).x, (nodeCenter fromN).y + fromN.size.height / 2⟩) ∧
    (nodeCenter toN = nodeCenter fromN → getAnchor fromN toN = nodeCenter fromN) := by
  refine ⟨?_, ?_, ?_⟩
  · intro ht d hd hw hx hy
    have hdx : (nodeCenter toN).x - (nodeCenter fromN).x = d := by rw [hx]; ring
    have hdy : (nodeCenter toN).y - (nodeCenter fromN).y = 0 := by rw [hy]; ring
    have hdist : Real.sqrt (((nodeCenter toN).x - (nodeCenter fromN).x) ^ 2 +
        ((nodeCenter toN).y - (nodeCenter fromN).y) ^ 2) = d := by
      rw [hdx, hdy]
      simpa using Real.sqrt_sq hd.le
    rw [getAnchor_def, if_neg (by rw [hdist]; exact hd.ne'), ht]
    simp only [hdx, hdy]
    have hs : Real.sqrt (d ^ 2 + 0 ^ 2) = d := by
      simpa using Real.sqrt_sq hd.le
    have hterm : d / d = 1 := div_self hd.ne'
    have hhw : (0 : ℝ) < fromN.size.width / 2 := by linarith
    rw [hs, hterm]
    simp only [zero_div, abs_zero, one_div]
    rw [abs_of_pos (inv_pos.mpr hhw)]
    simp only [add_zero, inv_inv, Point.mk.injEq]
    constructor <;> ring
  · intro ht d hd hh hx hy
    have hdx : (nodeCenter toN).x - (nodeCenter fromN).x = 0 := by rw [hx]; ring
    have hdy : (nodeCenter toN).y - (nodeCenter fromN).y = d := by rw [hy]; ring
    have hdist : Real.sqrt (((nodeCenter toN).x - (nodeCenter fromN).x) ^ 2 +
        ((nodeCenter toN).y - (nodeCenter fromN).y) ^ 2) = d := by
      rw [hdx, hdy]
      simpa using Real.sqrt_sq hd.le
    rw [getAnchor_def, if_neg (by rw [hdist]; exact hd.ne'), ht]
    simp only [hdx, hdy]
    have hs : Real.sqrt (0 ^ 2 + d ^ 2) = d := by
      simpa using Real.sqrt_sq hd.le
    have hterm : d / d = 1 := div_self hd.ne'
    have hhh : (0 : ℝ) < fromN.size.height / 2 := by linarith
    rw [hs, hterm]
    simp only [zero_div, abs_zero, one_div]
    rw [abs_of_pos (inv_pos.mpr hhh)]
    simp only [zero_add, inv_inv, Point.mk.injEq]
    constructor <;> ring
  · intro hcc
    have hdx : (nodeCenter toN).x - (nodeCenter fromN).x = 0 := by rw [hcc]; ring
    have hdy : (nodeCenter toN).y - (nodeCenter fromN).y = 0 := by rw [hcc]; ring
    rw [getAnchor_def, if_pos (by rw [hdx, hdy]; simp)]

/-- Witness for C10 at a concrete input: the anchor of a `120 × 80`
rectangle centered at `(60, 40)` toward a node centered at `(260, 40)` is
`(120, 40)`. -/
theorem c10_anchor_rectangle_witness :
    getAnchor rectAt00 rectAt200 =
      ⟨(nodeCenter rectAt00).x + rectAt00.size.width / 2, (nodeCenter rectAt00).y⟩ :=
  (c10_anchor_rectangle rectAt00 rectAt200).1 rfl 200 (by norm_num)
    (by norm_num [rectAt00, mkNode, DEFAULT_NODE_SIZE])
    (by norm_num [rectAt00, rectAt200, mkNode, nodeCenter, DEFAULT_NODE_SIZE])
    (by norm_num [rectAt00, rectAt200, mkNode, nodeCenter, DEFAULT_NODE_SIZE])

/-- `saveHistory` only rewrites `history` and `historyIndex`. -/
@[simp] lemma saveHistory_nodes (s : CanvasState) : (saveHistory s).nodes = s.nodes := rfl

/-- `saveHistory` leaves the edge list unchanged. -/
@[simp] lemma saveHistory_edges (s : CanvasState) : (saveHistory s).edges = s.edges := rfl

/-- `saveHistory` leaves the viewport unchanged. -/
@[simp] lemma saveHistory_viewport (s : CanvasState) : (saveHistory s).viewport = s.viewport := rfl

/-- `saveHistory` leaves the node selection unchanged. -/
@[simp] lemma saveHistory_selectedNodes (s : CanvasState) :
    (saveHistory s).selectedNodes = s.selectedNodes := rfl

/-- `saveHistory` leaves the edge selection unchanged. -/
@[simp] lemma saveHistory_selectedEdges (s : CanvasState) :
    (saveHistory s).selectedEdges = s.selectedEdges := rfl

/-- C1 (amended): `addEdge(sourceId, targetId)` leaves the whole state
unchanged when `sourceId = targetId` or when either id has no
corresponding node; on success it appends exactly one edge, with both
anchors computed by the geometry function `getAnchor`.  The source
performs NO duplicate-edge check inside `addEdge` (that check lives in the
UI click handler), so a second successful `addEdge(a, b)` appends a second
edge — see the counterexample. -/
theorem c1_addEdge_rejects_self_and_missing (s : CanvasState) (eid a b : String) :
    (a = b → addEdge eid a b s = s) ∧
    (s.nodes.find? (fun n => n.id == a) = none → addEdge eid a b s = s) ∧
    (s.nodes.find? (fun n => n.id == b) = none → addEdge eid a b s = s) ∧
    (∀ na nb, s.nodes.find? (fun n => n.id == a) = some na →
      s.nodes.find? (fun n => n.id == b) = some nb → a ≠ b →
      (addEdge eid a b s).edges =
        s.edges ++ [{ id := eid, sourceNodeId := a, targetNodeId := b,
                      sourceAnchor := getAnchor na nb, targetAnchor := getAnchor nb na }]) := by
  refine ⟨?_, ?_, ?_, ?_⟩
  · rintro rfl
    unfold addEdge
    split
    · simp
    · rfl
  · intro hfa
    unfold addEdge
    split
    · next na nb hna hnb => rw [hfa] at hna; cases hna
    · rfl
  · intro hfb
    unfold addEdge
    split
    · next na nb hna hnb => rw [hfb] at hnb; cases hnb
    · rfl
  · intro na nb hfa hfb hab
    unfold addEdge
    split
    · next na' nb' hna hnb =>
        rw [hfa] at hna
        rw [hfb] at hnb
        cases hna
        cases hnb
        rw [if_neg hab]
        simp
    · next hcontra =>
        exact (hcontra na nb hfa hfb).elim

/-- Witness for C1 at a concrete input: a self-loop request is rejected
unchanged. -/
theorem c1_addEdge_rejects_witness :
    addEdge "e1" "r1" "r1" { initialState with nodes := [rectAt00] } =
      { initialState with nodes := [rectAt00] } :=
  (c1_addEdge_rejects_self_and_missing { initialState with nodes := [rectAt00] }
    "e1" "r1" "r1").1 rfl

/-- C1 counterexample: `addEdge` has no duplicate check, so calling
`addEdge(r1, r2)` twice yields TWO edges between the unordered pair
`{r1, r2}`, not one as the claim states. -/
theorem c1_duplicate_edge_counterexample :
    ((addEdge "e2" "r1" "r2" (addEdge "e1" "r1" "r2" stateR12)).edges.filter
      (fun e => (e.sourceNodeId == "r1" && e.targetNodeId == "r2") ||
                (e.sourceNodeId == "r2" && e.targetNodeId == "r1"))).length = 2 := rfl

/-- The history produced by `saveHistory`, phrased with `evict`. -/
lemma saveHistory_history (s : CanvasState) :
    (saveHistory s).history =
      evict (s.history.take (s.historyIndex + 1).toNat ++ [snapshotOf s]) := rfl

/-- `saveHistory` points the index at the last entry. -/
lemma saveHistory_historyIndex (s : CanvasState) :
    (saveHistory s).historyIndex = ((saveHistory s).history.length : ℤ) - 1 := rfl

/-- `saveHistory` does not change the snapshot of the live fields. -/
lemma snapshotOf_saveHistory (s : CanvasState) : snapshotOf (saveHistory s) = snapshotOf s := rfl

/-- Evicting from a list that ends in `x` keeps the final `x`. -/
lemma evict_append_singleton (ys : List HistoryState) (x : HistoryState) :
    evict (ys ++ [x]) = (if 50 < ys.length + 1 then ys.tail else ys) ++ [x] := by
  unfold evict
  rw [List.length_append]
  by_cases h : 50 < ys.length + 1
  · rw [if_pos (by simpa using h), if_pos h]
    cases ys with
    | nil => simp at h
    | cons y ys' => rfl
  · rw [if_neg (by simpa using h), if_neg h]

/-- `evict` keeps the last 50 entries of a list of at most 51. -/
lemma evict_eq_lastN (xs : List HistoryState) (h : xs.length ≤ 51) :
    evict xs = lastN 50 xs := by
  unfold evict lastN
  split
  · next h50 =>
    rw [← List.drop_one]
    congr 1
    omega
  · next h50 =>
    rw [Nat.sub_eq_zero_of_le (by omega), List.drop_zero]

/-- `lastN` is the identity on short lists. -/
lemma lastN_of_le {xs : List HistoryState} {n : ℕ} (h : xs.length ≤ n) :
    lastN n xs = xs := by
  unfold lastN
  rw [Nat.sub_eq_zero_of_le h, List.drop_zero]

/-- Taking the last `n` of a prefix already cut to its last `n` changes
nothing. -/
lemma lastN_absorb (n : ℕ) (xs ys : List HistoryState) :
    lastN n (lastN n xs ++ ys) = lastN n (xs ++ ys) := by
  unfold lastN
  rw [List.length_append, List.length_drop, List.length_append,
      List.drop_append_eq_append_drop, List.drop_drop,
      List.drop_append_eq_append_drop, List.length_drop]
  have h1 : xs.length - n + (xs.length - (xs.length - n) + ys.length - n) =
      xs.length + ys.length - n := by omega
  have h2 : xs.length - (xs.length - n) + ys.length - n - (xs.length - (xs.length - n)) =
      xs.length + ys.length - n - xs.length := by omega
  rw [h1, h2]

/-- The history after one commit on a state whose index is at the last
entry: append the committed snapshot, then evict. -/
lemma commit_history (m : HistoryState) (s : CanvasState)
    (h : s.historyIndex = (s.history.length : ℤ) - 1) :
    (commit m s).history = evict (s.history ++ [m]) := by
  show evict ((mutateFields m s).history.take
      ((mutateFields m s).historyIndex + 1).toNat ++ [snapshotOf (mutateFields m s)]) =
    evict (s.history ++ [m])
  have e1 : (mutateFields m s).history = s.history := rfl
  have e2 : (mutateFields m s).historyIndex = s.historyIndex := rfl
  have e3 : snapshotOf (mutateFields m s) = m := rfl
  rw [e1, e2, e3, h]
  have e4 : ((s.history.length : ℤ) - 1 + 1).toNat = s.history.length := by omega
  rw [e4, List.take_length]

/-- A commit points the index at the last entry. -/
lemma commit_historyIndex (m : HistoryState) (s : CanvasState) :
    (commit m s).historyIndex = ((commit m s).history.length : ℤ) - 1 := rfl

/-- A commit preserves the history bookkeeping invariant. -/
lemma commit_HistWF (m : HistoryState) (s : CanvasState) (h : HistWF s) :
    HistWF (commit m s) := by
  obtain ⟨h1, h2⟩ := h
  refine ⟨commit_historyIndex m s, ?_⟩
  rw [commit_history m s h1]
  unfold evict
  split
  · next h50 => rw [List.length_tail, List.length_append]; simp; omega
  · next h50 => rw [List.length_append] at h50 ⊢; omega

/-- `commitAll` peels one commit at a time. -/
lemma commitAll_cons (m : HistoryState) (ms : List HistoryState) (s : CanvasState) :
    commitAll (m :: ms) s = commitAll ms (commit m s) := rfl

/-- The history after a sequence of commits, from any well-bookkept state:
the last 50 of the old history extended by the committed snapshots. -/
lemma commitAll_history (ms : List HistoryState) :
    ∀ s : CanvasState, HistWF s → (commitAll ms s).history = lastN 50 (s.history ++ ms) := by
  induction ms with
  | nil =>
    intro s hs
    show s.history = lastN 50 (s.history ++ [])
    rw [List.append_nil, lastN_of_le hs.2]
  | cons m ms ih =>
    intro s hs
    rw [commitAll_cons, ih _ (commit_HistWF m s hs), commit_history m s hs.1]
    rw [evict_eq_lastN _ (by rw [List.length_append]; simpa using hs.2)]
    rw [lastN_absorb]
    congr 1
    simp

/-- On a state whose history ends `…, x, y` with the index on the last
entry, `undo` restores `x` and the following `redo` restores `y`. -/
lemma undo_redo_of_last_two (s2 : CanvasState) (B : List HistoryState) (x y : HistoryState)
    (hh : s2.history = B ++ [x, y])
    (hi : s2.historyIndex = (s2.history.length : ℤ) - 1) :
    snapshotOf (undo s2) = x ∧ snapshotOf (redo (undo s2)) = y := by
  have hlen : s2.history.length = B.length + 2 := by rw [hh]; simp
  have hipos : 0 < s2.historyIndex := by rw [hi, hlen]; push_cast; omega
  have hgx : s2.history.getD (s2.historyIndex - 1).toNat emptySnapshot = x := by
    have hn : (s2.historyIndex - 1).toNat = B.length := by rw [hi, hlen]; push_cast; omega
    rw [hn, hh, List.getD_append_right B _ emptySnapshot B.length (le_refl B.length)]
    simp [List.getD]
  have hu : undo s2 =
      { s2 with
        nodes := x.nodes
        edges := x.edges
        viewport := x.viewport
        historyIndex := s2.historyIndex - 1
        selectedNodes := []
        selectedEdges := [] } := by
    unfold undo
    rw [if_pos hipos, hgx]
  constructor
  · rw [hu]; exact rfl
  · have hcond : (undo s2).historyIndex < ((undo s2).history.length : ℤ) - 1 := by
      rw [hu]
      show s2.historyIndex - 1 < (s2.history.length : ℤ) - 1
      rw [hi]
      omega
    have hgy : (undo s2).history.getD ((undo s2).historyIndex + 1).toNat emptySnapshot = y := by
      rw [hu]
      show s2.history.getD (s2.historyIndex - 1 + 1).toNat emptySnapshot = y
      have hn : (s2.historyIndex - 1 + 1).toNat = B.length + 1 := by
        rw [hi, hlen]; push_cast; omega
      rw [hn, hh,
        List.getD_append_right B _ emptySnapshot (B.length + 1) (by omega)]
      simp [List.getD]
    unfold redo
    rw [if_pos hcond, hgy]
    exact rfl

/-- C2: `undo()` is a no-op when `historyIndex ≤ 0`; otherwise it restores
the snapshot at `index - 1` and clears both selection sets; and around a
commit-point mutation (the store's convention: mutate the document fields,
then `saveHistory()`), `saveHistory(); mutate-and-commit; undo()` restores
nodes/edges/viewport equal to the pre-mutation snapshot, and a subsequent
`redo()` restores them equal to the post-mutation state. -/
theorem c2_undo_redo_round_trip :
    (∀ s : CanvasState, s.historyIndex ≤ 0 → undo s = s) ∧
    (∀ s : CanvasState, 0 < s.historyIndex →
        (undo s).selectedNodes = [] ∧ (undo s).selectedEdges = [] ∧
        (undo s).historyIndex = s.historyIndex - 1 ∧
        snapshotOf (undo s) =
          s.history.getD (s.historyIndex - 1).toNat emptySnapshot) ∧
    (∀ (s : CanvasState) (m : HistoryState),
        snapshotOf (undo (commit m (saveHistory s))) = snapshotOf s ∧
        snapshotOf (redo (undo (commit m (saveHistory s)))) = m) := by
  refine ⟨?_, ?_, ?_⟩
  · intro s h
    unfold undo
    rw [if_neg (by omega)]
  · intro s h
    unfold undo
    rw [if_pos h]
    exact ⟨rfl, rfl, rfl, rfl⟩
  · intro s m
    obtain ⟨A, hA⟩ : ∃ A, (saveHistory s).history = A ++ [snapshotOf s] :=
      ⟨_, by rw [saveHistory_history, evict_append_singleton]⟩
    have h2 : (commit m (saveHistory s)).history = evict ((saveHistory s).history ++ [m]) :=
      commit_history m (saveHistory s) (saveHistory_historyIndex s)
    rw [hA] at h2
    obtain ⟨B, hB⟩ : ∃ B, (commit m (saveHistory s)).history = B ++ [snapshotOf s, m] := by
      rw [h2, evict_append_singleton]
      by_cases hc : 50 < (A ++ [snapshotOf s]).length + 1
      · rw [if_pos hc]
        cases A with
        | nil => simp at hc
        | cons a A' =>
          exact ⟨A', by simp⟩
      · rw [if_neg hc]
        exact ⟨A, by simp⟩
    exact undo_redo_of_last_two _ B (snapshotOf s) m hB
      (commit_historyIndex m (saveHistory s))

/-- Witness for C2 at a concrete input: on the initial state
(`historyIndex = -1 ≤ 0`) `undo` is a no-op. -/
theorem c2_undo_redo_round_trip_witness : undo initialState = initialState :=
  c2_undo_redo_round_trip.1 initialState (by decide)

/-- C3: `saveHistory()` discards the entries after the current index,
appends the snapshot of the current `{nodes, edges, viewport}` as the new
last entry, evicts from the front exactly when the list would exceed 50,
and points the index at the last entry (so, starting within the cap, the
result stays within the cap); consequently, after more than 50 commits
from the initial state the history length is exactly 50 and the surviving
snapshots are precisely the last 50 commits — the oldest survivor is the
50th-from-last commit. -/
theorem c3_saveHistory_cap_50 :
    (∀ s : CanvasState,
        (saveHistory s).history =
          evict (s.history.take (s.historyIndex + 1).toNat ++ [snapshotOf s]) ∧
        (saveHistory s).history.getLast? = some (snapshotOf s) ∧
        (saveHistory s).historyIndex = ((saveHistory s).history.length : ℤ) - 1 ∧
        (s.history.length ≤ 50 → (saveHistory s).history.length ≤ 50)) ∧
    (∀ ms : List HistoryState, 50 < ms.length →
        (commitAll ms initialState).history = ms.drop (ms.length - 50) ∧
        (commitAll ms initialState).history.length = 50) := by
  constructor
  · intro s
    refine ⟨rfl, ?_, rfl, ?_⟩
    · rw [saveHistory_history, evict_append_singleton, List.getLast?_concat]
    · intro hle
      rw [saveHistory_history]
      unfold evict
      have ht : (s.history.take (s.historyIndex + 1).toNat).length ≤ s.history.length := by
        rw [List.length_take]
        omega
      split
      · next h50 =>
        rw [List.length_tail, List.length_append]
        simp only [List.length_singleton]
        omega
      · next h50 =>
        rw [List.length_append] at h50 ⊢
        simp only [List.length_singleton] at h50 ⊢
        omega
  · intro ms hms
    have hwf : HistWF initialState := by
      constructor
      · decide
      · show (0 : ℕ) ≤ 50
        decide
    have h := commitAll_history ms initialState hwf
    have hh : (commitAll ms initialState).history = ms.drop (ms.length - 50) := by
      rw [h]
      show lastN 50 ([] ++ ms) = ms.drop (ms.length - 50)
      rw [List.nil_append]
      rfl
    refine ⟨hh, ?_⟩
    rw [hh, List.length_drop]
    omega

/-- Witness for C3 at a concrete input: 51 commits keep exactly the last
50 snapshots. -/
theorem c3_saveHistory_cap_50_witness :
    (commitAll (List.replicate 51 emptySnapshot) initialState).history =
      (List.replicate 51 emptySnapshot).drop ((List.replicate 51 emptySnapshot).length - 50) ∧
    (commitAll (List.replicate 51 emptySnapshot) initialState).history.length = 50 :=
  c3_saveHistory_cap_50.2 (List.replicate 51 emptySnapshot) (by simp)

/-- A found node is a member of the list and satisfies the id test. -/
lemma find?_id_spec {l : List Node} {a : String} {na : Node}
    (h : l.find? (fun n => n.id == a) = some na) : na ∈ l ∧ na.id = a := by
  refine ⟨List.mem_of_find?_eq_some h, ?_⟩
  have := List.find?_some h
  simpa using this

/-- Every single add/delete operation preserves the no-dangling-edges
invariant. -/
lemma applyOp_edgesWellFormed (s : CanvasState) (op : SceneOp)
    (h : edgesWellFormed s) : edgesWellFormed (applyOp s op) := by
  cases op with
  | addNode id type position =>
    intro e he
    have he' : e ∈ s.edges := he
    obtain ⟨⟨n1, hn1, hid1⟩, ⟨n2, hn2, hid2⟩⟩ := h e he'
    exact ⟨⟨n1, List.mem_append_left _ hn1, hid1⟩, ⟨n2, List.mem_append_left _ hn2, hid2⟩⟩
  | addTextNode id position =>
    intro e he
    have he' : e ∈ s.edges := he
    obtain ⟨⟨n1, hn1, hid1⟩, ⟨n2, hn2, hid2⟩⟩ := h e he'
    exact ⟨⟨n1, List.mem_append_left _ hn1, hid1⟩, ⟨n2, List.mem_append_left _ hn2, hid2⟩⟩
  | addEdge eid a b =>
    show edgesWellFormed (addEdge eid a b s)
    unfold addEdge
    split
    · next na nb hna hnb =>
      split
      · exact h
      · intro e he
        have he' : e ∈ s.edges ++
            [Edge.mk eid a b (getAnchor na nb) (getAnchor nb na)] := he
        rcases List.mem_append.mp he' with hold | hnew
        · exact h e hold
        · obtain ⟨hna1, hna2⟩ := find?_id_spec hna
          obtain ⟨hnb1, hnb2⟩ := find?_id_spec hnb
          rcases List.mem_singleton.mp hnew with rfl
          exact ⟨⟨na, hna1, hna2⟩, ⟨nb, hnb1, hnb2⟩⟩
    · exact h
  | deleteNode id =>
    intro e he
    have he' : e ∈ s.edges.filter
        (fun edge => edge.sourceNodeId ≠ id ∧ edge.targetNodeId ≠ id) := he
    rw [List.mem_filter] at he'
    obtain ⟨hmem, hcond⟩ := he'
    have hcond' : e.sourceNodeId ≠ id ∧ e.targetNodeId ≠ id := by simpa using hcond
    obtain ⟨⟨n1, hn1, hid1⟩, ⟨n2, hn2, hid2⟩⟩ := h e hmem
    refine ⟨⟨n1, ?_, hid1⟩, ⟨n2, ?_, hid2⟩⟩
    · exact List.mem_filter.mpr ⟨hn1, by simp [hid1, hcond'.1]⟩
    · exact List.mem_filter.mpr ⟨hn2, by simp [hid2, hcond'.2]⟩
  | deleteEdge id =>
    intro e he
    have he' : e ∈ s.edges.filter (fun edge => edge.id ≠ id) := he
    rw [List.mem_filter] at he'
    exact h e he'.1
  | deleteSelected =>
    intro e he
    have he' : e ∈ s.edges.filter (fun edge =>
        ¬ edge.id ∈ s.selectedEdges ∧ ¬ edge.sourceNodeId ∈ s.selectedNodes ∧
        ¬ edge.targetNodeId ∈ s.selectedNodes) := he
    rw [List.mem_filter] at he'
    obtain ⟨hmem, hcond⟩ := he'
    have hcond' : ¬ e.id ∈ s.selectedEdges ∧ ¬ e.sourceNodeId ∈ s.selectedNodes ∧
        ¬ e.targetNodeId ∈ s.selectedNodes := by simpa using hcond
    obtain ⟨⟨n1, hn1, hid1⟩, ⟨n2, hn2, hid2⟩⟩ := h e hmem
    refine ⟨⟨n1, ?_, hid1⟩, ⟨n2, ?_, hid2⟩⟩
    · exact List.mem_filter.mpr ⟨hn1, by simp [hid1, hcond'.2.1]⟩
    · exact List.mem_filter.mpr ⟨hn2, by simp [hid2, hcond'.2.2]⟩

/-- C4: after `deleteNode(id)` no surviving edge references `id` at either
end; `deleteSelected` likewise removes every selected edge and every edge
touching a deleted (selected) node; and consequently the invariant "every
edge's two endpoint ids reference currently-existing nodes" is preserved
by every sequence of add/delete operations. -/
theorem c4_no_dangling_edges :
    (∀ (s : CanvasState) (id : String),
        ∀ e ∈ (deleteNode id s).edges, e.sourceNodeId ≠ id ∧ e.targetNodeId ≠ id) ∧
    (∀ s : CanvasState,
        ∀ e ∈ (deleteSelected s).edges,
          ¬ e.id ∈ s.selectedEdges ∧ ¬ e.sourceNodeId ∈ s.selectedNodes ∧
          ¬ e.targetNodeId ∈ s.selectedNodes) ∧
    (∀ (ops : List SceneOp) (s : CanvasState),
        edgesWellFormed s → edgesWellFormed (applyOps ops s)) := by
  refine ⟨?_, ?_, ?_⟩
  · intro s id e he
    have he' : e ∈ s.edges.filter
        (fun edge => edge.sourceNodeId ≠ id ∧ edge.targetNodeId ≠ id) := he
    rw [List.mem_filter] at he'
    simpa using he'.2
  · intro s e he
    have he' : e ∈ s.edges.filter (fun edge =>
        ¬ edge.id ∈ s.selectedEdges ∧ ¬ edge.sourceNodeId ∈ s.selectedNodes ∧
        ¬ edge.targetNodeId ∈ s.selectedNodes) := he
    rw [List.mem_filter] at he'
    simpa using he'.2
  · intro ops
    induction ops with
    | nil => intro s h; exact h
    | cons op ops ih =>
      intro s h
      exact ih _ (applyOp_edgesWellFormed s op h)

/-- Witness for C4 at a concrete input: add a rectangle then delete it;
the resulting scene still satisfies the no-dangling-edges invariant. -/
theorem c4_no_dangling_edges_witness :
    edgesWellFormed (applyOps
      [SceneOp.addNode "r1" NodeType.rectangle ⟨0, 0⟩, SceneOp.deleteNode "r1"]
      initialState) :=
  c4_no_dangling_edges.2.2 _ initialState
    (fun e he => absurd he (List.not_mem_nil e))

/-- C5 (amended): the resize path floors both dimensions at 20 — for
every handle index (all 8 handles and the default branch alike) and every
pointer position the size passed on by the resize handler satisfies
`width ≥ 20 ∧ height ≥ 20` — and node creation starts within the floor
(`addNode` creates `120 × 80`, `addTextNode` creates `120 × 50`).
(`updateNode` / `updateNodeSync` and `loadCanvas`, by contrast, apply
caller-supplied sizes verbatim with no floor — see the counterexample.) -/
theorem c5_resize_floors_size_at_20 :
    (∀ (index : ℕ) (originalPos : Point) (originalSize : Size)
        (viewport : ViewportState) (newPos : Point),
        20 ≤ (resizeFromHandle index originalPos originalSize viewport newPos).1.width ∧
        20 ≤ (resizeFromHandle index originalPos originalSize viewport newPos).1.height) ∧
    (∀ (id : String) (type : NodeType) (position : Point),
        20 ≤ (mkNode id type position).size.width ∧
        20 ≤ (mkNode id type position).size.height) ∧
    (∀ (id : String) (position : Point) (s : CanvasState),
        ∃ n, (addTextNode id position s).nodes.getLast? = some n ∧
          20 ≤ n.size.width ∧ 20 ≤ n.size.height) := by
  refine ⟨?_, ?_, ?_⟩
  · intro index originalPos originalSize viewport newPos
    exact ⟨le_max_left _ _, le_max_left _ _⟩
  · intro id type position
    constructor <;> norm_num [mkNode, DEFAULT_NODE_SIZE]
  · intro id position s
    refine ⟨{ id := id
              type := NodeType.text
              position := position
              size := ⟨100 + TEXT_NODE_PADDING * 2, 30 + TEXT_NODE_PADDING * 2⟩
              text := "Click to edit"
              fill := "transparent"
              stroke := "transparent"
              strokeWidth := 0 }, ?_, ?_, ?_⟩
    · exact List.getLast?_concat _
    · show (20 : ℝ) ≤ 100 + TEXT_NODE_PADDING * 2
      norm_num [TEXT_NODE_PADDING]
    · show (20 : ℝ) ≤ 30 + TEXT_NODE_PADDING * 2
      norm_num [TEXT_NODE_PADDING]

/-- C5 counterexample: `updateNodeSync` applies a caller-supplied size
verbatim — patching the only node with size `5 × 5` leaves a node of
width 5 in the scene, violating the claimed global `≥ 20` invariant
"after every mutation operation (… updateNodeSync …)". -/
theorem c5_min_size_counterexample :
    ((updateNodeSync "r1" { size := some ⟨5, 5⟩ }
        { initialState with nodes := [rectAt00] }).nodes.map
      (fun n => n.size.width)) = [5] ∧
    ¬ (20 : ℝ) ≤ 5 := by
  constructor
  · rfl
  · norm_num

/-- C8 (code bug in `addNode`): `deleteNode`, `addEdge`, `deleteEdge` each
push exactly one history snapshot, and debounced/synchronous field updates
push none — but `addNode` also pushes NONE (it never calls
`saveHistory`), so a plain node add is not a commit point and cannot be
undone, contradicting the claim (and spec §4.4, which lists node add as a
commit point; the sibling operations `addTextNode` and `duplicateNode` do
call `saveHistory`). -/
theorem c8_addNode_pushes_no_snapshot :
    (addNode "n1" NodeType.rectangle ⟨0, 0⟩ initialState).history = initialState.history ∧
    initialState.history = [] ∧
    (deleteNode "n1" (addNode "n1" NodeType.rectangle ⟨0, 0⟩ initialState)).history.length = 1 ∧
    (addEdge "e1" "r1" "r2" stateR12).history.length = 1 ∧
    (deleteEdge "e9" stateR12).history.length = 1 ∧
    (updateNodeDebounced "r1" { size := some ⟨30, 30⟩ } stateR12).history = stateR12.history ∧
    (updateNodeSync "r1" { size := some ⟨30, 30⟩ } stateR12).history = stateR12.history :=
  ⟨rfl, rfl, rfl, rfl, rfl, rfl, rfl⟩

/-- C9 (amended): the import handler requires the parsed content's
`nodes`, `edges` and `viewport` keys to be (JavaScript-)truthy; if any is
absent the operation fails with the failure notification and the
in-memory scene is left entirely unchanged (no partial application); when
all three pass, keys that are truthy but not array-typed are coerced to
empty arrays.  (A key that is present but falsy — `null`, `0`, `false`,
`""` — is rejected exactly like an absent one rather than being coerced;
see the counterexample.) -/
theorem c9_import_validates_presence (parsed : ParsedFile) (s : CanvasState) :
    ((parsed.nodes.isTruthy && parsed.edges.isTruthy && parsed.viewport.isTruthy) = false →
      handleImport parsed s = ⟨s, importFailedMsg⟩) ∧
    (parsed.nodes = JsField.absent ∨ parsed.edges = JsField.absent ∨
        parsed.viewport = JsViewportField.absent →
      (handleImport parsed s).canvas = s ∧
      (handleImport parsed s).notification = importFailedMsg) ∧
    ((parsed.nodes.isTruthy && parsed.edges.isTruthy && parsed.viewport.isTruthy) = true →
      handleImport parsed s =
        ⟨loadCanvas parsed.nodes.coerceArray parsed.edges.coerceArray
            parsed.viewport.orDefault s, importSuccessMsg⟩) := by
  refine ⟨?_, ?_, ?_⟩
  · intro h
    unfold handleImport
    rw [h]
    rfl
  · intro h
    have hfalse : (parsed.nodes.isTruthy && parsed.edges.isTruthy &&
        parsed.viewport.isTruthy) = false := by
      rcases h with h | h | h <;> rw [h] <;> simp [JsField.isTruthy, JsViewportField.isTruthy]
    unfold handleImport
    rw [hfalse]
    exact ⟨rfl, rfl⟩
  · intro h
    unfold handleImport
    rw [h]
    rfl

/-- Witness for C9 at a concrete input: a file whose `nodes` key is absent
is rejected, leaving the scene unchanged and the failure notification
emitted. -/
theorem c9_import_validates_presence_witness :
    (handleImport ⟨JsField.absent, JsField.arr [], JsViewportField.val ⟨0, 0, 1⟩⟩
        initialState).canvas = initialState ∧
    (handleImport ⟨JsField.absent, JsField.arr [], JsViewportField.val ⟨0, 0, 1⟩⟩
        initialState).notification = importFailedMsg :=
  (c9_import_validates_presence
    ⟨JsField.absent, JsField.arr [], JsViewportField.val ⟨0, 0, 1⟩⟩ initialState).2.1
    (Or.inl rfl)

/-- C9 counterexample: a `nodes` key that is present but falsy (e.g.
`"nodes": null` or `"nodes": 0` in the JSON) is a present, non-array
value, which the claim says is coerced to an empty array rather than
causing an error — but the code's `!parsed.nodes` truthiness check throws,
so the import fails instead of succeeding with coercion. -/
theorem c9_falsy_key_counterexample :
    (handleImport ⟨JsField.falsy, JsField.arr [], JsViewportField.val ⟨0, 0, 1⟩⟩
        initialState).notification = importFailedMsg ∧
    importFailedMsg ≠ importSuccessMsg := by
  constructor
  · rfl
  · decide

end Mindflow
